import Mathlib

/-!
Shallow embedding of the repository/service core of `edumes/golang-api-rest`.

The embedding covers the four resources (User, Product, Project, ProjectItem),
their repository operations (gorm-backed CRUD with soft delete and filtered,
paginated listing) and the service layer on top of them, as implemented in
`src/internal/infrastructure/*.go`, `src/internal/application/*.go` and
`src/internal/domain/*.go` (some of these files appear as `src/unnamed/part_*`).

Modelling conventions:
- `uuid.UUID` and `time.Time` are modelled as `Nat`; the Go zero values
  (`uuid.Nil`, the zero `time.Time`) are modelled as `0`.
- `float64` money/hours values are modelled as `Rat` (the claims only involve
  exact decimal constants, where binary floating point is exact as well for
  the comparisons performed by the code).
- A database table is a `List` of rows; query results keep list order.
- `ORDER BY` on an arbitrary sort expression is handed uninterpreted to
  PostgreSQL by the code, so listing is parameterized by an order function
  `ob : String → List α → List α`; theorems assume only that the storage
  engine returns a permutation of the matched rows.
-/

namespace GoApiRest

/-- Models `uuid.UUID`; `0` plays the role of `uuid.Nil` (the Go zero value). -/
abbrev UUID := Nat

/-- Models `time.Time`; `0` plays the role of the zero `time.Time`. -/
abbrev Time := Nat

/-- Errors surfaced by the repository layer: `notFound` models
`gorm.ErrRecordNotFound` (returned by `First` when no row matches),
`missingWhere` models `gorm.ErrMissingWhereClause` (an `Updates` whose model
value has a zero primary key produces no WHERE clause, and global updates are
blocked under the default configuration used in the repository's
`gorm.Config`), and `storage` models a database-level failure such as a
unique-constraint violation. -/
inductive RepoError
  | notFound
  | missingWhere
  | storage
deriving DecidableEq, Repr

/-- Errors surfaced by the service layer. The Go code returns plain
`errors.New(msg)` values; the spec's taxonomy classifies them as
`ValidationError` (400), `InsufficientStock` (400) and storage errors. -/
inductive SvcError
  | validation (msg : String)
  | insufficientStock
  | repo (e : RepoError)
deriving DecidableEq, Repr

/-- `leadsWith pat l` is true when `pat` occurs at the very front of `l`. -/
def leadsWith : List Char → List Char → Bool
  | [], _ => true
  | _ :: _, [] => false
  | a :: as, b :: bs => a == b && leadsWith as bs

/-- `hasSegment pat l` is true when `pat` occurs contiguously somewhere in `l`. -/
def hasSegment (pat : List Char) : List Char → Bool
  | [] => leadsWith pat []
  | c :: rest => leadsWith pat (c :: rest) || hasSegment pat rest

/-- Lower-cased character list of a string (ASCII case folding, which is what
the claims exercise). -/
def lowerChars (s : String) : List Char := s.data.map Char.toLower

/-- Models the SQL predicate `col ILIKE '%' || pat || '%'` as built by the Go
repositories (`db.Where("name ILIKE ?", "%"+filter.Name+"%")`): case-insensitive
substring match, for pattern strings containing no SQL wildcard characters. -/
def ilike (pat s : String) : Bool := hasSegment (lowerChars pat) (lowerChars s)

/-- Models `col >= ?` applied only when the optional bound is non-nil, on a
NOT NULL column. -/
def fromBound (bound : Option Nat) (x : Nat) : Bool :=
  match bound with
  | none => true
  | some b => decide (b ≤ x)

/-- Models `col <= ?` applied only when the optional bound is non-nil, on a
NOT NULL column. -/
def toBound (bound : Option Nat) (x : Nat) : Bool :=
  match bound with
  | none => true
  | some b => decide (x ≤ b)

/-- Models `col >= ?` on a `Rat`-valued NOT NULL column. -/
def fromBoundQ (bound : Option Rat) (x : Rat) : Bool :=
  match bound with
  | none => true
  | some b => decide (b ≤ x)

/-- Models `col <= ?` on a `Rat`-valued NOT NULL column. -/
def toBoundQ (bound : Option Rat) (x : Rat) : Bool :=
  match bound with
  | none => true
  | some b => decide (x ≤ b)

/-- Models `col >= ?` on a nullable column: in SQL a NULL column value makes
the comparison NULL, so the row is filtered out when the bound is present. -/
def fromBoundN (bound : Option Nat) (col : Option Nat) : Bool :=
  match bound with
  | none => true
  | some b => match col with
    | none => false
    | some x => decide (b ≤ x)

/-- Models `col <= ?` on a nullable column. -/
def toBoundN (bound : Option Nat) (col : Option Nat) : Bool :=
  match bound with
  | none => true
  | some b => match col with
    | none => false
    | some x => decide (x ≤ b)

/-- Models `col >= ?` on a nullable `Rat`-valued column. -/
def fromBoundNQ (bound : Option Rat) (col : Option Rat) : Bool :=
  match bound with
  | none => true
  | some b => match col with
    | none => false
    | some x => decide (b ≤ x)

/-- Models `col <= ?` on a nullable `Rat`-valued column. -/
def toBoundNQ (bound : Option Rat) (col : Option Rat) : Bool :=
  match bound with
  | none => true
  | some b => match col with
    | none => false
    | some x => decide (x ≤ b)

/-- Models `domain.Pagination` (`Limit`, `Offset`, `Sort`, all Go `int` /
`string`, zero-valued by default). -/
structure Pagination where
  limit : Int := 0
  offset : Int := 0
  sort : String := ""
deriving DecidableEq, Repr

/-- The effective number of rows skipped: the repositories add `OFFSET` only
when `pagination.Offset > 0`. -/
def offsetEff (p : Pagination) : Nat := if 0 < p.offset then p.offset.toNat else 0

/-- The shared tail of every repository `List`: apply `Order(sort)` only when
`sort != ""`, `Limit(n)` only when `limit > 0`, `Offset(n)` only when
`offset > 0`. The resulting SQL `ORDER BY … LIMIT n OFFSET m` sorts, then
skips `m` rows, then returns at most `n` rows. -/
def paginate {α : Type} (ob : String → List α → List α) (p : Pagination)
    (rows : List α) : List α :=
  let sorted := if p.sort == "" then rows else ob p.sort rows
  let shifted := if 0 < p.offset then sorted.drop p.offset.toNat else sorted
  if 0 < p.limit then shifted.take p.limit.toNat else shifted

/-- Models `domain.User` (`src/internal/domain/user.go`). -/
structure User where
  id : UUID
  name : String
  email : String
  passwordHash : String
  createdAt : Time
  updatedAt : Time
  deletedAt : Option Time
deriving DecidableEq, Repr

/-- Models `domain.Params`, the user list filter. -/
structure Params where
  name : String := ""
  email : String := ""
  createdAtFrom : Option Time := none
  createdAtTo : Option Time := none
deriving DecidableEq, Repr

/-- The predicate accumulated by `PostgresUserRepository.List`: name `ILIKE`
substring when non-empty, email exact equality when non-empty, inclusive
created-at bounds when non-nil, and always `deleted_at IS NULL`. -/
def userMatches (f : Params) (u : User) : Bool :=
  (f.name == "" || ilike f.name u.name)
    && (f.email == "" || u.email == f.email)
    && fromBound f.createdAtFrom u.createdAt
    && toBound f.createdAtTo u.createdAt
    && u.deletedAt == none

/-- Models `PostgresUserRepository.List`. -/
def userList (ob : String → List User → List User) (db : List User)
    (f : Params) (p : Pagination) : List User :=
  paginate ob p (db.filter (userMatches f))

/-- Models `PostgresUserRepository.GetByID`:
`First(&user, "id = ? AND deleted_at IS NULL", id)`. -/
def userGetByID (db : List User) (id : UUID) : Except RepoError User :=
  match db.find? (fun u => u.id == id && u.deletedAt == none) with
  | some u => .ok u
  | none => .error .notFound

/-- Models `PostgresUserRepository.Create` together with the storage
constraints on the `users` table: the primary key on `id` and the unique
index on `email` (`gorm:"uniqueIndex"` in `domain.User`, created by the
`db.AutoMigrate` call in `src/cmd/api/main.go`). The unique index covers
soft-deleted rows as well. -/
def userCreate (db : List User) (u : User) : Except RepoError (List User) :=
  if db.any (fun r => r.id == u.id || r.email == u.email) then .error .storage
  else .ok (db ++ [u])

/-- The partial-field overwrite done by gorm's `Updates(user)` (struct
argument): fields holding the Go zero value (empty string, zero time, nil
pointer) are skipped, the rest overwrite the stored row. -/
def userMerge (r u : User) : User :=
  { id := r.id
    name := if u.name == "" then r.name else u.name
    email := if u.email == "" then r.email else u.email
    passwordHash := if u.passwordHash == "" then r.passwordHash else u.passwordHash
    createdAt := if u.createdAt == 0 then r.createdAt else u.createdAt
    updatedAt := if u.updatedAt == 0 then r.updatedAt else u.updatedAt
    deletedAt := match u.deletedAt with
      | none => r.deletedAt
      | some t => some t }

/-- Models `PostgresUserRepository.Update`:
`db.Model(user).Updates(user)` — a partial overwrite of every row whose
primary key matches, together with its deterministic error paths. A zero
primary key (`uuid.Nil`, modelled `0`) yields no WHERE clause and gorm
returns `ErrMissingWhereClause` before any SQL runs. Otherwise the UPDATE
executes, and PostgreSQL rejects it with a unique violation when a written
row's new email is already held by a row with a different id (the unique
index on `email` covers every row; rows are assumed primary-key-unique).
gorm reports `ErrRecordNotFound` only for `First`/`Take`/`Last`, so an UPDATE
affecting zero rows is not an error. -/
def userUpdate (db : List User) (u : User) : Except RepoError (List User) :=
  if u.id == 0 then .error .missingWhere
  else if db.any (fun r => r.id == u.id
      && db.any (fun s => !(s.id == u.id) && s.email == (userMerge r u).email)) then
    .error .storage
  else .ok (db.map (fun r => if r.id == u.id then userMerge r u else r))

/-- The row transformation of `PostgresUserRepository.Delete`:
`UPDATE users SET deleted_at = now WHERE id = ?`. -/
def userMark (db : List User) (id : UUID) (now : Time) : List User :=
  db.map (fun r => if r.id == id then { r with deletedAt := some now } else r)

/-- Models `PostgresUserRepository.Delete`: a soft delete that stamps
`deleted_at` on every row with the given id and never reports a missing or
already-deleted row as an error. -/
def userDelete (db : List User) (id : UUID) (now : Time) :
    Except RepoError (List User) :=
  .ok (userMark db id now)

/-- The rows visible to the default query predicate (`deleted_at IS NULL`). -/
def visibleUsers (db : List User) : List User :=
  db.filter (fun r => r.deletedAt == none)

/-- Models `domain.Product` (declared alongside the error helpers in
`src/internal/domain/errors.go`). -/
structure Product where
  id : UUID
  name : String
  description : String
  price : Rat
  stock : Int
  category : String
  sku : String
  createdAt : Time
  updatedAt : Time
  deletedAt : Option Time
deriving DecidableEq, Repr

/-- Models `domain.ProductParams`, the product list filter. -/
structure ProductParams where
  name : String := ""
  category : String := ""
  sku : String := ""
  priceFrom : Option Rat := none
  priceTo : Option Rat := none
  stockFrom : Option Int := none
  stockTo : Option Int := none
  createdAtFrom : Option Time := none
  createdAtTo : Option Time := none
deriving DecidableEq, Repr

/-- Models `stock >= ?` applied only when the optional bound is non-nil. -/
def fromBoundZ (bound : Option Int) (x : Int) : Bool :=
  match bound with
  | none => true
  | some b => decide (b ≤ x)

/-- Models `stock <= ?` applied only when the optional bound is non-nil. -/
def toBoundZ (bound : Option Int) (x : Int) : Bool :=
  match bound with
  | none => true
  | some b => decide (x ≤ b)

/-- The predicate accumulated by `PostgresProductRepository.List`: `ILIKE`
substring on name/category/sku when non-empty, inclusive price, stock and
created-at bounds when non-nil, and always `deleted_at IS NULL`. -/
def productMatches (f : ProductParams) (x : Product) : Bool :=
  (f.name == "" || ilike f.name x.name)
    && (f.category == "" || ilike f.category x.category)
    && (f.sku == "" || ilike f.sku x.sku)
    && fromBoundQ f.priceFrom x.price
    && toBoundQ f.priceTo x.price
    && fromBoundZ f.stockFrom x.stock
    && toBoundZ f.stockTo x.stock
    && fromBound f.createdAtFrom x.createdAt
    && toBound f.createdAtTo x.createdAt
    && x.deletedAt == none

/-- Models `PostgresProductRepository.List`. -/
def productList (ob : String → List Product → List Product) (db : List Product)
    (f : ProductParams) (p : Pagination) : List Product :=
  paginate ob p (db.filter (productMatches f))

/-- Models `PostgresProductRepository.GetByID`:
`First(&product, "id = ? AND deleted_at IS NULL", id)`. -/
def productGetByID (db : List Product) (id : UUID) : Except RepoError Product :=
  match db.find? (fun x => x.id == id && x.deletedAt == none) with
  | some x => .ok x
  | none => .error .notFound

/-- Models `PostgresProductRepository.GetBySKU`:
`First(&product, "sku = ? AND deleted_at IS NULL", sku)`. -/
def productGetBySKU (db : List Product) (sku : String) : Except RepoError Product :=
  match db.find? (fun x => x.sku == sku && x.deletedAt == none) with
  | some x => .ok x
  | none => .error .notFound

/-- Models `PostgresProductRepository.Create` together with the storage
constraints on the `products` table: the primary key on `id` and the unique
constraint on `sku` (`sku VARCHAR(100) UNIQUE NOT NULL` in the migration, and
`gorm:"uniqueIndex"` on `domain.Product.SKU` applied by `db.AutoMigrate` in
`src/cmd/api/main.go`). The unique constraint covers soft-deleted rows. -/
def productCreate (db : List Product) (x : Product) : Except RepoError (List Product) :=
  if db.any (fun r => r.id == x.id || r.sku == x.sku) then .error .storage
  else .ok (db ++ [x])

/-- gorm's `Updates(product)` partial overwrite: Go zero-valued fields
(empty strings, `0` price and stock, zero times, nil pointer) are skipped. -/
def productMerge (r x : Product) : Product :=
  { id := r.id
    name := if x.name == "" then r.name else x.name
    description := if x.description == "" then r.description else x.description
    price := if x.price == 0 then r.price else x.price
    stock := if x.stock == 0 then r.stock else x.stock
    category := if x.category == "" then r.category else x.category
    sku := if x.sku == "" then r.sku else x.sku
    createdAt := if x.createdAt == 0 then r.createdAt else x.createdAt
    updatedAt := if x.updatedAt == 0 then r.updatedAt else x.updatedAt
    deletedAt := match x.deletedAt with
      | none => r.deletedAt
      | some t => some t }

/-- Models `PostgresProductRepository.Update`:
`db.Model(product).Updates(product)` with its deterministic error paths: a
zero primary key yields `ErrMissingWhereClause`; a written row whose new SKU
is already held by a row with a different id trips the unique constraint on
`sku` (which covers every row); affecting zero rows is not an error. -/
def productUpdate (db : List Product) (x : Product) : Except RepoError (List Product) :=
  if x.id == 0 then .error .missingWhere
  else if db.any (fun r => r.id == x.id
      && db.any (fun s => !(s.id == x.id) && s.sku == (productMerge r x).sku)) then
    .error .storage
  else .ok (db.map (fun r => if r.id == x.id then productMerge r x else r))

/-- The row transformation of `PostgresProductRepository.Delete`. -/
def productMark (db : List Product) (id : UUID) (now : Time) : List Product :=
  db.map (fun r => if r.id == id then { r with deletedAt := some now } else r)

/-- Models `PostgresProductRepository.Delete`: soft delete, never an error
for a missing or already-deleted row. -/
def productDelete (db : List Product) (id : UUID) (now : Time) :
    Except RepoError (List Product) :=
  .ok (productMark db id now)

/-- The row transformation of `PostgresProductRepository.UpdateStock`:
`UPDATE products SET stock = v WHERE id = ?` (no `deleted_at` guard). -/
def productSetStock (db : List Product) (id : UUID) (v : Int) : List Product :=
  db.map (fun r => if r.id == id then { r with stock := v } else r)

/-- Models `PostgresProductRepository.UpdateStock`: overwrites the stock
column with the absolute value computed by the service; affecting zero rows
is not an error. -/
def productUpdateStock (db : List Product) (id : UUID) (v : Int) :
    Except RepoError (List Product) :=
  .ok (productSetStock db id v)

/-- The rows visible to the default query predicate. -/
def visibleProducts (db : List Product) : List Product :=
  db.filter (fun r => r.deletedAt == none)

/-- Models `domain.Project`. -/
structure Project where
  id : UUID
  name : String
  description : String
  status : String
  startDate : Option Time
  endDate : Option Time
  budget : Option Rat
  ownerID : UUID
  createdAt : Time
  updatedAt : Time
  deletedAt : Option Time
deriving DecidableEq, Repr

/-- Models `domain.ProjectParams`, the project list filter. -/
structure ProjectParams where
  name : String := ""
  status : String := ""
  ownerID : Option UUID := none
  startDateFrom : Option Time := none
  startDateTo : Option Time := none
  endDateFrom : Option Time := none
  endDateTo : Option Time := none
  budgetFrom : Option Rat := none
  budgetTo : Option Rat := none
  createdAtFrom : Option Time := none
  createdAtTo : Option Time := none
deriving DecidableEq, Repr

/-- The predicate accumulated by `PostgresProjectRepository.List`. The
start/end-date and budget columns are nullable, so a NULL column value fails
any bound comparison. -/
def projectMatches (f : ProjectParams) (x : Project) : Bool :=
  (f.name == "" || ilike f.name x.name)
    && (f.status == "" || x.status == f.status)
    && (match f.ownerID with
        | none => true
        | some v => x.ownerID == v)
    && fromBoundN f.startDateFrom x.startDate
    && toBoundN f.startDateTo x.startDate
    && fromBoundN f.endDateFrom x.endDate
    && toBoundN f.endDateTo x.endDate
    && fromBoundNQ f.budgetFrom x.budget
    && toBoundNQ f.budgetTo x.budget
    && fromBound f.createdAtFrom x.createdAt
    && toBound f.createdAtTo x.createdAt
    && x.deletedAt == none

/-- Models `PostgresProjectRepository.List`. -/
def projectList (ob : String → List Project → List Project) (db : List Project)
    (f : ProjectParams) (p : Pagination) : List Project :=
  paginate ob p (db.filter (projectMatches f))

/-- Models `PostgresProjectRepository.GetByID`. -/
def projectGetByID (db : List Project) (id : UUID) : Except RepoError Project :=
  match db.find? (fun x => x.id == id && x.deletedAt == none) with
  | some x => .ok x
  | none => .error .notFound

/-- Models `PostgresProjectRepository.GetByOwnerID`:
`Where("owner_id = ? AND deleted_at IS NULL", ownerID).Find(...)`. -/
def projectGetByOwnerID (db : List Project) (ownerID : UUID) : List Project :=
  db.filter (fun x => x.ownerID == ownerID && x.deletedAt == none)

/-- gorm's `Updates(project)` partial overwrite with Go zero values skipped. -/
def projectMerge (r x : Project) : Project :=
  { id := r.id
    name := if x.name == "" then r.name else x.name
    description := if x.description == "" then r.description else x.description
    status := if x.status == "" then r.status else x.status
    startDate := match x.startDate with
      | none => r.startDate
      | some t => some t
    endDate := match x.endDate with
      | none => r.endDate
      | some t => some t
    budget := match x.budget with
      | none => r.budget
      | some b => some b
    ownerID := if x.ownerID == 0 then r.ownerID else x.ownerID
    createdAt := if x.createdAt == 0 then r.createdAt else x.createdAt
    updatedAt := if x.updatedAt == 0 then r.updatedAt else x.updatedAt
    deletedAt := match x.deletedAt with
      | none => r.deletedAt
      | some t => some t }

/-- Models `PostgresProjectRepository.Update`: a zero primary key yields
`ErrMissingWhereClause`; affecting zero rows is not an error. The `projects`
table has no unique column beyond the primary key; a rejection of the
`owner_id` foreign key depends on the `users` table, which this single-table
model does not carry, so the theorems below assert only how the service
delegates, never that the repository cannot fail. -/
def projectUpdate (db : List Project) (x : Project) : Except RepoError (List Project) :=
  if x.id == 0 then .error .missingWhere
  else .ok (db.map (fun r => if r.id == x.id then projectMerge r x else r))

/-- The row transformation of `PostgresProjectRepository.Delete`. -/
def projectMark (db : List Project) (id : UUID) (now : Time) : List Project :=
  db.map (fun r => if r.id == id then { r with deletedAt := some now } else r)

/-- Models `PostgresProjectRepository.Delete`. -/
def projectDelete (db : List Project) (id : UUID) (now : Time) :
    Except RepoError (List Project) :=
  .ok (projectMark db id now)

/-- The rows visible to the default query predicate. -/
def visibleProjects (db : List Project) : List Project :=
  db.filter (fun r => r.deletedAt == none)

/-- Models `domain.ProjectItem`. -/
structure ProjectItem where
  id : UUID
  projectID : UUID
  name : String
  description : String
  status : String
  priority : String
  estimatedHours : Option Rat
  actualHours : Option Rat
  dueDate : Option Time
  assignedTo : Option UUID
  createdAt : Time
  updatedAt : Time
  deletedAt : Option Time
deriving DecidableEq, Repr

/-- Models `domain.ProjectItemParams`, the project item list filter. -/
structure ProjectItemParams where
  projectID : Option UUID := none
  name : String := ""
  status : String := ""
  priority : String := ""
  assignedTo : Option UUID := none
  dueDateFrom : Option Time := none
  dueDateTo : Option Time := none
  estimatedHoursFrom : Option Rat := none
  estimatedHoursTo : Option Rat := none
  actualHoursFrom : Option Rat := none
  actualHoursTo : Option Rat := none
  createdAtFrom : Option Time := none
  createdAtTo : Option Time := none
deriving DecidableEq, Repr

/-- The predicate accumulated by `PostgresProjectItemRepository.List`. The
`assigned_to` column is nullable, so `assigned_to = ?` only matches rows whose
column is non-NULL and equal. -/
def itemMatches (f : ProjectItemParams) (x : ProjectItem) : Bool :=
  (match f.projectID with
      | none => true
      | some v => x.projectID == v)
    && (f.name == "" || ilike f.name x.name)
    && (f.status == "" || x.status == f.status)
    && (f.priority == "" || x.priority == f.priority)
    && (match f.assignedTo with
        | none => true
        | some v => x.assignedTo == some v)
    && fromBoundN f.dueDateFrom x.dueDate
    && toBoundN f.dueDateTo x.dueDate
    && fromBoundNQ f.estimatedHoursFrom x.estimatedHours
    && toBoundNQ f.estimatedHoursTo x.estimatedHours
    && fromBoundNQ f.actualHoursFrom x.actualHours
    && toBoundNQ f.actualHoursTo x.actualHours
    && fromBound f.createdAtFrom x.createdAt
    && toBound f.createdAtTo x.createdAt
    && x.deletedAt == none

/-- Models `PostgresProjectItemRepository.List`. -/
def itemList (ob : String → List ProjectItem → List ProjectItem)
    (db : List ProjectItem) (f : ProjectItemParams) (p : Pagination) :
    List ProjectItem :=
  paginate ob p (db.filter (itemMatches f))

/-- Models `PostgresProjectItemRepository.GetByID`. -/
def itemGetByID (db : List ProjectItem) (id : UUID) : Except RepoError ProjectItem :=
  match db.find? (fun x => x.id == id && x.deletedAt == none) with
  | some x => .ok x
  | none => .error .notFound

/-- Models `PostgresProjectItemRepository.GetByProjectID`. -/
def itemGetByProjectID (db : List ProjectItem) (projectID : UUID) : List ProjectItem :=
  db.filter (fun x => x.projectID == projectID && x.deletedAt == none)

/-- Models `PostgresProjectItemRepository.GetByAssignedTo`:
`Where("assigned_to = ? AND deleted_at IS NULL", assignedTo)`. -/
def itemGetByAssignedTo (db : List ProjectItem) (assignedTo : UUID) : List ProjectItem :=
  db.filter (fun x => x.assignedTo == some assignedTo && x.deletedAt == none)

/-- gorm's `Updates(item)` partial overwrite with Go zero values skipped. -/
def itemMerge (r x : ProjectItem) : ProjectItem :=
  { id := r.id
    projectID := if x.projectID == 0 then r.projectID else x.projectID
    name := if x.name == "" then r.name else x.name
    description := if x.description == "" then r.description else x.description
    status := if x.status == "" then r.status else x.status
    priority := if x.priority == "" then r.priority else x.priority
    estimatedHours := match x.estimatedHours with
      | none => r.estimatedHours
      | some h => some h
    actualHours := match x.actualHours with
      | none => r.actualHours
      | some h => some h
    dueDate := match x.dueDate with
      | none => r.dueDate
      | some t => some t
    assignedTo := match x.assignedTo with
      | none => r.assignedTo
      | some a => some a
    createdAt := if x.createdAt == 0 then r.createdAt else x.createdAt
    updatedAt := if x.updatedAt == 0 then r.updatedAt else x.updatedAt
    deletedAt := match x.deletedAt with
      | none => r.deletedAt
      | some t => some t }

/-- Models `PostgresProjectItemRepository.Update`: a zero primary key yields
`ErrMissingWhereClause`; affecting zero rows is not an error. The
`project_items` table has no unique column beyond the primary key; rejections
of the `project_id`/`assigned_to` foreign keys depend on other tables, which
this single-table model does not carry, so the theorems below assert only how
the service delegates, never that the repository cannot fail. -/
def itemUpdate (db : List ProjectItem) (x : ProjectItem) :
    Except RepoError (List ProjectItem) :=
  if x.id == 0 then .error .missingWhere
  else .ok (db.map (fun r => if r.id == x.id then itemMerge r x else r))

/-- The row transformation of `PostgresProjectItemRepository.Delete`. -/
def itemMark (db : List ProjectItem) (id : UUID) (now : Time) : List ProjectItem :=
  db.map (fun r => if r.id == id then { r with deletedAt := some now } else r)

/-- Models `PostgresProjectItemRepository.Delete`. -/
def itemDelete (db : List ProjectItem) (id : UUID) (now : Time) :
    Except RepoError (List ProjectItem) :=
  .ok (itemMark db id now)

/-- The rows visible to the default query predicate. -/
def visibleItems (db : List ProjectItem) : List ProjectItem :=
  db.filter (fun r => r.deletedAt == none)

/-- Whitespace as stripped by Go's `strings.TrimSpace` (`unicode.IsSpace`),
restricted to the ASCII range exercised by the spec and claims. -/
def isSpaceGo (c : Char) : Bool :=
  c == ' ' || c == '\t' || c == '\n' || c == '\x0b' || c == '\x0c' || c == '\r'

/-- Models the test `strings.TrimSpace(s) == ""`: the string consists solely
of whitespace characters. -/
def isBlank (s : String) : Bool := s.data.all isSpaceGo

/-- UTF-8 encoded size of a character, as counted by Go's built-in `len` on a
string. -/
def charBytes (c : Char) : Nat :=
  if c.val < 0x80 then 1
  else if c.val < 0x800 then 2
  else if c.val < 0x10000 then 3
  else 4

/-- Models Go's `len(s)` on a string: the UTF-8 byte length. -/
def goLen (s : String) : Nat := s.data.foldl (fun n c => n + charBytes c) 0

/-- The `domain.User` literal built by `UserService.CreateUser` before the
repository insert: fresh id, both timestamps set to now, hash stored. -/
def mkUser (newId : UUID) (now : Time) (name email hashValue : String) : User :=
  { id := newId, name := name, email := email, passwordHash := hashValue
    createdAt := now, updatedAt := now, deletedAt := none }

/-- Models `UserService.CreateUser` (`src/internal/application/user_service.go`,
lines 27-85). The two fallible external inputs `uuid.New()` and `time.Now()`
are the `newId`/`now` parameters; the bcrypt hashing primitive (out of scope
per the spec) is the abstract total function `hash`. On a validation failure
the repository is never called, so the state component stays `db`. -/
def CreateUser (db : List User) (newId : UUID) (now : Time)
    (name email password : String) (hash : String → String) :
    List User × Except SvcError User :=
  if !(email.data.contains '@') then
    (db, .error (.validation "invalid email"))
  else if goLen password < 6 then
    (db, .error (.validation "password too short"))
  else
    let u : User := mkUser newId now name email (hash password)
    match userCreate db u with
    | .ok db2 => (db2, .ok u)
    | .error e => (db, .error (.repo e))

/-- Models `UserService.UpdateUser`: stamps `updated_at` and delegates to the
repository with no validation of any kind. -/
def UpdateUser (db : List User) (now : Time) (u : User) :
    List User × Option SvcError :=
  match userUpdate db { u with updatedAt := now } with
  | .ok db2 => (db2, none)
  | .error e => (db, some (.repo e))

/-- The `domain.Product` literal built by `ProductService.CreateProduct`
before the repository insert. -/
def mkProduct (newId : UUID) (now : Time) (name description category sku : String)
    (price : Rat) (stock : Int) : Product :=
  { id := newId, name := name, description := description
    price := price, stock := stock, category := category, sku := sku
    createdAt := now, updatedAt := now, deletedAt := none }

/-- Models `ProductService.CreateProduct` (`src/unnamed/part_008`, lines
26-103): the validation ladder (blank name, blank SKU, `price <= 0`,
`stock < 0`), then the duplicate-SKU pre-read via `GetBySKU` (which sees only
non-deleted rows), then the repository insert. -/
def CreateProduct (db : List Product) (newId : UUID) (now : Time)
    (name description category sku : String) (price : Rat) (stock : Int) :
    List Product × Except SvcError Product :=
  if isBlank name then
    (db, .error (.validation "product name is required"))
  else if isBlank sku then
    (db, .error (.validation "product SKU is required"))
  else if price ≤ 0 then
    (db, .error (.validation "product price must be greater than zero"))
  else if stock < 0 then
    (db, .error (.validation "product stock cannot be negative"))
  else
    match productGetBySKU db sku with
    | .ok _ => (db, .error (.validation "product SKU already exists"))
    | .error _ =>
      let x : Product := mkProduct newId now name description category sku price stock
      match productCreate db x with
      | .ok db2 => (db2, .ok x)
      | .error e => (db, .error (.repo e))

/-- Models `ProductService.UpdateProduct` (`src/unnamed/part_008`, lines
174-220): unlike the other three update services, it re-runs the
creation-time checks (blank name, `price <= 0`, `stock < 0`) before stamping
`updated_at` and delegating to the repository. -/
def UpdateProduct (db : List Product) (now : Time) (x : Product) :
    List Product × Option SvcError :=
  if isBlank x.name then
    (db, some (.validation "product name is required"))
  else if x.price ≤ 0 then
    (db, some (.validation "product price must be greater than zero"))
  else if x.stock < 0 then
    (db, some (.validation "product stock cannot be negative"))
  else
    match productUpdate db { x with updatedAt := now } with
    | .ok db2 => (db2, none)
    | .error e => (db, some (.repo e))

/-- Models `ProductService.UpdateProductStock` (`src/unnamed/part_008`, lines
243-285): read the product (`GetByID`, soft-delete aware), compute
`newStock = stock + quantity`, fail with the insufficient-stock error when it
is negative (the repository write is never reached, so the state stays `db`),
otherwise persist the absolute value through `UpdateStock`. -/
def UpdateProductStock (db : List Product) (id : UUID) (quantity : Int) :
    List Product × Option SvcError :=
  match productGetByID db id with
  | .error e => (db, some (.repo e))
  | .ok x =>
    let newStock := x.stock + quantity
    if newStock < 0 then
      (db, some .insufficientStock)
    else
      match productUpdateStock db id newStock with
      | .ok db2 => (db2, none)
      | .error e => (db, some (.repo e))

/-- Models `ProjectService.UpdateProject` (`src/unnamed/part_007`): stamps
`updated_at` and delegates with no validation. -/
def UpdateProject (db : List Project) (now : Time) (x : Project) :
    List Project × Option SvcError :=
  match projectUpdate db { x with updatedAt := now } with
  | .ok db2 => (db2, none)
  | .error e => (db, some (.repo e))

/-- Models `ProjectItemService.UpdateProjectItem`
(`src/internal/application/project_item_service.go`): stamps `updated_at` and
delegates with no validation. -/
def UpdateProjectItem (db : List ProjectItem) (now : Time) (x : ProjectItem) :
    List ProjectItem × Option SvcError :=
  match itemUpdate db { x with updatedAt := now } with
  | .ok db2 => (db2, none)
  | .error e => (db, some (.repo e))

/-! ### Shared lemmas about the pagination pipeline -/

/-- Any row returned by the pagination pipeline comes from the underlying
matched rows, provided the storage engine's `ORDER BY` returns a permutation
of its input. -/
theorem mem_of_mem_paginate {α : Type} {ob : String → List α → List α}
    (hob : ∀ s l, List.Perm (ob s l) l) {p : Pagination} {rows : List α}
    {x : α} (hx : x ∈ paginate ob p rows) : x ∈ rows := by
  simp only [paginate] at hx
  have h2 : x ∈ (if 0 < p.offset then
      (if p.sort == "" then rows else ob p.sort rows).drop p.offset.toNat
      else (if p.sort == "" then rows else ob p.sort rows)) := by
    split at hx
    · exact List.mem_of_mem_take hx
    · exact hx
  have h3 : x ∈ (if p.sort == "" then rows else ob p.sort rows) := by
    split at h2
    · exact List.mem_of_mem_drop h2
    · exact h2
  split at h3
  · exact h3
  · exact ((hob p.sort rows).mem_iff).1 h3

/-- The number of rows the pagination contract returns out of `n` matched
rows: skip `offset` (when positive), then cap at `limit` (when positive). -/
def pageCount (p : Pagination) (n : Nat) : Nat :=
  if 0 < p.limit then min p.limit.toNat (n - offsetEff p) else n - offsetEff p

/-- Length of the paginated result, for any permutation-respecting storage
order. -/
theorem length_paginate {α : Type} {ob : String → List α → List α}
    (hob : ∀ s l, List.Perm (ob s l) l) (p : Pagination) (rows : List α) :
    (paginate ob p rows).length = pageCount p rows.length := by
  have hsor : (if p.sort = "" then rows else ob p.sort rows).length
      = rows.length := by
    split
    · rfl
    · exact (hob p.sort rows).length_eq
  by_cases hl : 0 < p.limit <;> by_cases ho : 0 < p.offset <;>
    simp [paginate, pageCount, offsetEff, hl, ho, hsor]

/-- With no limit and no offset the pipeline returns a permutation of the
matched rows. -/
theorem paginate_perm {α : Type} {ob : String → List α → List α}
    (hob : ∀ s l, List.Perm (ob s l) l) (p : Pagination)
    (hl : p.limit ≤ 0) (ho : p.offset ≤ 0) (rows : List α) :
    List.Perm (paginate ob p rows) rows := by
  have hl' : ¬ 0 < p.limit := not_lt.2 hl
  have ho' : ¬ 0 < p.offset := not_lt.2 ho
  simp only [paginate, if_neg hl', if_neg ho']
  split
  · exact List.Perm.refl _
  · exact hob p.sort rows

/-! ### Shared lemmas about soft-delete marking -/

/-- Filtering for visibility after marking the keyed rows: a marked row is
invisible, an unkeyed row is untouched. -/
theorem filter_map_mark {α : Type} (key : α → Bool) (p : α → Bool) (f : α → α)
    (hkey : ∀ r, key r = true → p (f r) = false) (l : List α) :
    (l.map (fun r => if key r then f r else r)).filter p
      = l.filter (fun r => !key r && p r) := by
  induction l with
  | nil => rfl
  | cons a l ih =>
    by_cases h : key a
    · simp [List.filter_cons, h, hkey a h, ih]
    · simp [List.filter_cons, h, ih]

/-- A filter that excludes the keyed rows is unaffected by marking them,
provided marking preserves the key. -/
theorem filter_map_mark_stable {α : Type} (key : α → Bool) (p : α → Bool)
    (f : α → α) (hkeyf : ∀ r, key (f r) = key r) (l : List α) :
    (l.map (fun r => if key r then f r else r)).filter
        (fun r => !key r && p r)
      = l.filter (fun r => !key r && p r) := by
  induction l with
  | nil => rfl
  | cons a l ih =>
    by_cases h : key a
    · simp [List.filter_cons, h, hkeyf, ih]
    · simp [List.filter_cons, h, ih]

/-- Marking rows whose key is absent from the list changes nothing. -/
theorem map_mark_eq_self {α : Type} (key : α → Bool) (f : α → α) (l : List α)
    (h : ∀ r ∈ l, key r = false) :
    l.map (fun r => if key r then f r else r) = l := by
  have h2 : ∀ r ∈ l, (if key r then f r else r) = id r := by
    intro r hr
    simp [h r hr]
  rw [List.map_congr_left h2, List.map_id]

/-! ### Per-resource consequences of the accumulated predicates -/

theorem userMatches_deleted {f : Params} {u : User}
    (h : userMatches f u = true) : u.deletedAt = none := by
  simp [userMatches] at h
  exact h.2

theorem productMatches_deleted {f : ProductParams} {x : Product}
    (h : productMatches f x = true) : x.deletedAt = none := by
  simp [productMatches] at h
  exact h.2

theorem projectMatches_deleted {f : ProjectParams} {x : Project}
    (h : projectMatches f x = true) : x.deletedAt = none := by
  simp [projectMatches] at h
  exact h.2

theorem itemMatches_deleted {f : ProjectItemParams} {x : ProjectItem}
    (h : itemMatches f x = true) : x.deletedAt = none := by
  simp [itemMatches] at h
  exact h.2

theorem userGetByID_ok {db : List User} {id : UUID} {u : User}
    (h : userGetByID db id = .ok u) : u.deletedAt = none := by
  unfold userGetByID at h
  cases hf : db.find? (fun x => x.id == id && x.deletedAt == none) with
  | none => rw [hf] at h; cases h
  | some v =>
    rw [hf] at h
    cases h
    have hp := List.find?_some hf
    simp at hp
    exact hp.2

theorem productGetByID_ok {db : List Product} {id : UUID} {x : Product}
    (h : productGetByID db id = .ok x) : x.deletedAt = none := by
  unfold productGetByID at h
  cases hf : db.find? (fun r => r.id == id && r.deletedAt == none) with
  | none => rw [hf] at h; cases h
  | some v =>
    rw [hf] at h
    cases h
    have hp := List.find?_some hf
    simp at hp
    exact hp.2

theorem productGetBySKU_ok {db : List Product} {sku : String} {x : Product}
    (h : productGetBySKU db sku = .ok x) : x.deletedAt = none := by
  unfold productGetBySKU at h
  cases hf : db.find? (fun r => r.sku == sku && r.deletedAt == none) with
  | none => rw [hf] at h; cases h
  | some v =>
    rw [hf] at h
    cases h
    have hp := List.find?_some hf
    simp at hp
    exact hp.2

theorem projectGetByID_ok {db : List Project} {id : UUID} {x : Project}
    (h : projectGetByID db id = .ok x) : x.deletedAt = none := by
  unfold projectGetByID at h
  cases hf : db.find? (fun r => r.id == id && r.deletedAt == none) with
  | none => rw [hf] at h; cases h
  | some v =>
    rw [hf] at h
    cases h
    have hp := List.find?_some hf
    simp at hp
    exact hp.2

theorem itemGetByID_ok {db : List ProjectItem} {id : UUID} {x : ProjectItem}
    (h : itemGetByID db id = .ok x) : x.deletedAt = none := by
  unfold itemGetByID at h
  cases hf : db.find? (fun r => r.id == id && r.deletedAt == none) with
  | none => rw [hf] at h; cases h
  | some v =>
    rw [hf] at h
    cases h
    have hp := List.find?_some hf
    simp at hp
    exact hp.2

theorem userGetByID_notFound {db : List User} {id : UUID}
    (h : ∀ r ∈ db, r.id = id → r.deletedAt ≠ none) :
    userGetByID db id = .error .notFound := by
  unfold userGetByID
  have hf : db.find? (fun x => x.id == id && x.deletedAt == none) = none := by
    rw [List.find?_eq_none]
    intro x hx
    simp
    exact h x hx
  rw [hf]

theorem productGetByID_notFound {db : List Product} {id : UUID}
    (h : ∀ r ∈ db, r.id = id → r.deletedAt ≠ none) :
    productGetByID db id = .error .notFound := by
  unfold productGetByID
  have hf : db.find? (fun x => x.id == id && x.deletedAt == none) = none := by
    rw [List.find?_eq_none]
    intro x hx
    simp
    exact h x hx
  rw [hf]

theorem projectGetByID_notFound {db : List Project} {id : UUID}
    (h : ∀ r ∈ db, r.id = id → r.deletedAt ≠ none) :
    projectGetByID db id = .error .notFound := by
  unfold projectGetByID
  have hf : db.find? (fun x => x.id == id && x.deletedAt == none) = none := by
    rw [List.find?_eq_none]
    intro x hx
    simp
    exact h x hx
  rw [hf]

theorem itemGetByID_notFound {db : List ProjectItem} {id : UUID}
    (h : ∀ r ∈ db, r.id = id → r.deletedAt ≠ none) :
    itemGetByID db id = .error .notFound := by
  unfold itemGetByID
  have hf : db.find? (fun x => x.id == id && x.deletedAt == none) = none := by
    rw [List.find?_eq_none]
    intro x hx
    simp
    exact h x hx
  rw [hf]

theorem productGetBySKU_notFound {db : List Product} {sku : String}
    (h : ∀ r ∈ db, r.sku = sku → r.deletedAt ≠ none) :
    productGetBySKU db sku = .error .notFound := by
  unfold productGetBySKU
  have hf : db.find? (fun x => x.sku == sku && x.deletedAt == none) = none := by
    rw [List.find?_eq_none]
    intro x hx
    simp
    exact h x hx
  rw [hf]

theorem find?_setStock (db : List Product) (id : UUID) (v : Int) :
    (productSetStock db id v).find? (fun x => x.id == id && x.deletedAt == none)
      = (db.find? (fun x => x.id == id && x.deletedAt == none)).map
          (fun x => { x with stock := v }) := by
  induction db with
  | nil => rfl
  | cons r l ih =>
    show List.find? _
        ((if r.id == id then { r with stock := v } else r) :: productSetStock l id v)
      = _
    by_cases hid : r.id = id
    · subst hid
      by_cases hdel : r.deletedAt = none
      · simp [List.find?_cons, hdel]
      · simp [List.find?_cons, hdel, ih]
    · simp [List.find?_cons, hid, ih]

/-- Reading a product back after `UpdateStock` wrote the new absolute value:
the same row is found, with its stock overwritten. -/
theorem productGetByID_setStock (db : List Product) (id : UUID) (v : Int) :
    productGetByID (productSetStock db id v) id
      = (productGetByID db id).map (fun x => { x with stock := v }) := by
  unfold productGetByID
  rw [find?_setStock]
  cases db.find? (fun x => x.id == id && x.deletedAt == none) <;> rfl

instance {ε α : Type} [DecidableEq ε] [DecidableEq α] : DecidableEq (Except ε α) :=
  fun x y =>
    match x, y with
    | .ok a, .ok b =>
      if h : a = b then isTrue (by rw [h])
      else isFalse (by intro hc; injection hc; contradiction)
    | .error a, .error b =>
      if h : a = b then isTrue (by rw [h])
      else isFalse (by intro hc; injection hc; contradiction)
    | .ok _, .error _ => isFalse (by intro hc; cases hc)
    | .error _, .ok _ => isFalse (by intro hc; cases hc)

/-! ### Claims -/

/-- **C1.** For every resource (User, Product, Project, ProjectItem) and every
repository query operation (`List` with any filter and pagination, `GetByID`,
`GetBySKU`, `GetByOwnerID`, `GetByProjectID`, `GetByAssignedTo`), a row whose
`deleted_at` field is non-null never appears in the result: `List` never
includes it (for any storage ordering that permutes the matched rows), every
single-row lookup that succeeds returns a non-deleted row, and `GetByID` on an
identifier all of whose rows are soft-deleted fails with `NotFound`. -/
theorem C1_soft_deleted_rows_invisible :
    (∀ ob, (∀ s l, List.Perm (ob s l) l) → ∀ db f p,
        ∀ u ∈ userList ob db f p, u.deletedAt = none)
  ∧ (∀ ob, (∀ s l, List.Perm (ob s l) l) → ∀ db f p,
        ∀ x ∈ productList ob db f p, x.deletedAt = none)
  ∧ (∀ ob, (∀ s l, List.Perm (ob s l) l) → ∀ db f p,
        ∀ x ∈ projectList ob db f p, x.deletedAt = none)
  ∧ (∀ ob, (∀ s l, List.Perm (ob s l) l) → ∀ db f p,
        ∀ x ∈ itemList ob db f p, x.deletedAt = none)
  ∧ (∀ db id u, userGetByID db id = Except.ok u → u.deletedAt = none)
  ∧ (∀ db id x, productGetByID db id = Except.ok x → x.deletedAt = none)
  ∧ (∀ db sku x, productGetBySKU db sku = Except.ok x → x.deletedAt = none)
  ∧ (∀ db id x, projectGetByID db id = Except.ok x → x.deletedAt = none)
  ∧ (∀ db id x, itemGetByID db id = Except.ok x → x.deletedAt = none)
  ∧ (∀ db oid, ∀ x ∈ projectGetByOwnerID db oid, x.deletedAt = none)
  ∧ (∀ db pid, ∀ x ∈ itemGetByProjectID db pid, x.deletedAt = none)
  ∧ (∀ db aid, ∀ x ∈ itemGetByAssignedTo db aid, x.deletedAt = none)
  ∧ (∀ db id, (∀ r ∈ db, r.id = id → r.deletedAt ≠ none) →
        userGetByID db id = Except.error RepoError.notFound)
  ∧ (∀ db id, (∀ r ∈ db, r.id = id → r.deletedAt ≠ none) →
        productGetByID db id = Except.error RepoError.notFound)
  ∧ (∀ db id, (∀ r ∈ db, r.id = id → r.deletedAt ≠ none) →
        projectGetByID db id = Except.error RepoError.notFound)
  ∧ (∀ db id, (∀ r ∈ db, r.id = id → r.deletedAt ≠ none) →
        itemGetByID db id = Except.error RepoError.notFound) := by
  refine ⟨?_, ?_, ?_, ?_, ?_, ?_, ?_, ?_, ?_, ?_, ?_, ?_, ?_, ?_, ?_, ?_⟩
  · intro ob hob db f p u hu
    exact userMatches_deleted (List.mem_filter.1 (mem_of_mem_paginate hob hu)).2
  · intro ob hob db f p x hx
    exact productMatches_deleted (List.mem_filter.1 (mem_of_mem_paginate hob hx)).2
  · intro ob hob db f p x hx
    exact projectMatches_deleted (List.mem_filter.1 (mem_of_mem_paginate hob hx)).2
  · intro ob hob db f p x hx
    exact itemMatches_deleted (List.mem_filter.1 (mem_of_mem_paginate hob hx)).2
  · exact fun db id u h => userGetByID_ok h
  · exact fun db id x h => productGetByID_ok h
  · exact fun db sku x h => productGetBySKU_ok h
  · exact fun db id x h => projectGetByID_ok h
  · exact fun db id x h => itemGetByID_ok h
  · intro db oid x hx
    have h := (List.mem_filter.1 hx).2
    simp at h
    exact h.2
  · intro db pid x hx
    have h := (List.mem_filter.1 hx).2
    simp at h
    exact h.2
  · intro db aid x hx
    have h := (List.mem_filter.1 hx).2
    simp at h
    exact h.2
  · exact fun db id h => userGetByID_notFound h
  · exact fun db id h => productGetByID_notFound h
  · exact fun db id h => projectGetByID_notFound h
  · exact fun db id h => itemGetByID_notFound h

/-- A soft-deleted sample user (C1). -/
def c1DeletedUser : User :=
  { id := 1, name := "Ann", email := "ann@x.io", passwordHash := "h"
    createdAt := 0, updatedAt := 0, deletedAt := some 9 }

/-- A visible sample user (C1). -/
def c1VisibleUser : User :=
  { id := 2, name := "Bea", email := "bea@x.io", passwordHash := "h"
    createdAt := 0, updatedAt := 0, deletedAt := none }

/-- Witness for C1 at concrete inputs: `GetByID` on a soft-deleted user's id
fails with `NotFound`, and a user returned by a plain `List` is not deleted. -/
theorem C1_witness :
    userGetByID [c1DeletedUser] 1 = Except.error RepoError.notFound
  ∧ c1VisibleUser.deletedAt = none :=
  ⟨C1_soft_deleted_rows_invisible.2.2.2.2.2.2.2.2.2.2.2.2.1 [c1DeletedUser] 1
      (by decide),
    C1_soft_deleted_rows_invisible.1 (fun _ l => l) (fun s l => List.Perm.refl l)
      [c1VisibleUser] {} {} c1VisibleUser (by decide)⟩

/-- **C2.** For a product with current stock `S` read by `UpdateProductStock`
and any signed delta `d`: when `S + d < 0` the call fails with
`InsufficientStock` and the database state is returned unchanged (the
persisting `UpdateStock` call is never reached); when `S + d ≥ 0` it persists
the absolute value `S + d`, and reading the product back shows exactly that
stock. -/
theorem C2_update_stock (db : List Product) (id : UUID) (d : Int) (x : Product)
    (h : productGetByID db id = Except.ok x) :
    (x.stock + d < 0 →
        UpdateProductStock db id d = (db, some SvcError.insufficientStock))
  ∧ (0 ≤ x.stock + d →
        UpdateProductStock db id d = (productSetStock db id (x.stock + d), none)
      ∧ productGetByID (productSetStock db id (x.stock + d)) id
          = Except.ok { x with stock := x.stock + d }) := by
  constructor
  · intro hneg
    unfold UpdateProductStock
    rw [h]
    simp [hneg]
  · intro hpos
    have hneg : ¬ (x.stock + d < 0) := not_lt.2 hpos
    refine ⟨?_, ?_⟩
    · unfold UpdateProductStock
      rw [h]
      simp [hneg, productUpdateStock]
    · rw [productGetByID_setStock, h]
      rfl

/-- A sample product with stock 3 (C2). -/
def c2Product : Product :=
  { id := 1, name := "Box", description := "", price := 2, stock := 3
    category := "", sku := "BX", createdAt := 0, updatedAt := 0, deletedAt := none }

/-- Witness for C2 at concrete inputs: removing 5 from a stock of 3 fails with
`InsufficientStock` leaving the state unchanged; adding 2 persists stock 5. -/
theorem C2_witness :
    UpdateProductStock [c2Product] 1 (-5) = ([c2Product], some SvcError.insufficientStock)
  ∧ productGetByID (productSetStock [c2Product] 1 (c2Product.stock + 2)) 1
      = Except.ok { c2Product with stock := c2Product.stock + 2 } :=
  ⟨(C2_update_stock [c2Product] 1 (-5) c2Product (by rfl)).1 (by decide),
    ((C2_update_stock [c2Product] 1 2 c2Product (by rfl)).2 (by decide)).2⟩

/-- A product with an invalid (zero) price (C3). -/
def c3InvalidPriceProduct : Product :=
  { id := 1, name := "Widget", description := "", price := 0, stock := 1
    category := "", sku := "W", createdAt := 0, updatedAt := 0, deletedAt := none }

/-- **C3, counterexample.** The claim states that no service-layer `Update*`
operation re-runs creation-time validation, so an entity with non-positive
price would be passed to storage without a `ValidationError`. But
`ProductService.UpdateProduct` does validate: at this concrete input with
price 0 it returns a validation error and storage is never reached (the state
component is returned unchanged). -/
theorem C3_counterexample :
    UpdateProduct [] 5 c3InvalidPriceProduct
      = ([], some (SvcError.validation "product price must be greater than zero")) := by
  rfl

/-- **C3, amended.** `UpdateUser`, `UpdateProject` and `UpdateProjectItem`
indeed re-run no validation: for every input entity, however invalid, they
never produce a `ValidationError`; they stamp `updated_at` and delegate to
the repository `Update`, whose outcome they pass through unchanged (success
as success, a repository error wrapped as a storage error). But
`ProductService.UpdateProduct` is the exception: it re-runs the creation-time
checks (blank name, `price ≤ 0`, `stock < 0`) and rejects invalid entities
with a `ValidationError` before reaching storage; only entities passing those
checks are delegated, again passing the repository's outcome through. -/
theorem C3_update_validation_amended :
    (∀ db now (u : User) msg,
        (UpdateUser db now u).2 ≠ some (SvcError.validation msg))
  ∧ (∀ db now (x : Project) msg,
        (UpdateProject db now x).2 ≠ some (SvcError.validation msg))
  ∧ (∀ db now (x : ProjectItem) msg,
        (UpdateProjectItem db now x).2 ≠ some (SvcError.validation msg))
  ∧ (∀ db now (u : User) db2,
        userUpdate db { u with updatedAt := now } = Except.ok db2 →
        UpdateUser db now u = (db2, none))
  ∧ (∀ db now (u : User) e,
        userUpdate db { u with updatedAt := now } = Except.error e →
        UpdateUser db now u = (db, some (SvcError.repo e)))
  ∧ (∀ db now (x : Project) db2,
        projectUpdate db { x with updatedAt := now } = Except.ok db2 →
        UpdateProject db now x = (db2, none))
  ∧ (∀ db now (x : Project) e,
        projectUpdate db { x with updatedAt := now } = Except.error e →
        UpdateProject db now x = (db, some (SvcError.repo e)))
  ∧ (∀ db now (x : ProjectItem) db2,
        itemUpdate db { x with updatedAt := now } = Except.ok db2 →
        UpdateProjectItem db now x = (db2, none))
  ∧ (∀ db now (x : ProjectItem) e,
        itemUpdate db { x with updatedAt := now } = Except.error e →
        UpdateProjectItem db now x = (db, some (SvcError.repo e)))
  ∧ (∀ db now (x : Product), isBlank x.name = true →
        UpdateProduct db now x
          = (db, some (SvcError.validation "product name is required")))
  ∧ (∀ db now (x : Product), isBlank x.name = false → x.price ≤ 0 →
        UpdateProduct db now x
          = (db, some (SvcError.validation "product price must be greater than zero")))
  ∧ (∀ db now (x : Product), isBlank x.name = false → ¬ x.price ≤ 0 → x.stock < 0 →
        UpdateProduct db now x
          = (db, some (SvcError.validation "product stock cannot be negative")))
  ∧ (∀ db now (x : Product) db2,
        isBlank x.name = false → ¬ x.price ≤ 0 → ¬ x.stock < 0 →
        productUpdate db { x with updatedAt := now } = Except.ok db2 →
        UpdateProduct db now x = (db2, none))
  ∧ (∀ db now (x : Product) e,
        isBlank x.name = false → ¬ x.price ≤ 0 → ¬ x.stock < 0 →
        productUpdate db { x with updatedAt := now } = Except.error e →
        UpdateProduct db now x = (db, some (SvcError.repo e))) := by
  refine ⟨?_, ?_, ?_, ?_, ?_, ?_, ?_, ?_, ?_, ?_, ?_, ?_, ?_, ?_⟩
  · intro db now u msg
    unfold UpdateUser
    cases h : userUpdate db { u with updatedAt := now } <;> simp
  · intro db now x msg
    unfold UpdateProject
    cases h : projectUpdate db { x with updatedAt := now } <;> simp
  · intro db now x msg
    unfold UpdateProjectItem
    cases h : itemUpdate db { x with updatedAt := now } <;> simp
  · intro db now u db2 h
    unfold UpdateUser
    rw [h]
  · intro db now u e h
    unfold UpdateUser
    rw [h]
  · intro db now x db2 h
    unfold UpdateProject
    rw [h]
  · intro db now x e h
    unfold UpdateProject
    rw [h]
  · intro db now x db2 h
    unfold UpdateProjectItem
    rw [h]
  · intro db now x e h
    unfold UpdateProjectItem
    rw [h]
  · intro db now x h
    unfold UpdateProduct
    simp [h]
  · intro db now x h hp
    unfold UpdateProduct
    simp [h, hp]
  · intro db now x h hp hs
    unfold UpdateProduct
    simp [h, hp, hs]
  · intro db now x db2 h hp hs hok
    unfold UpdateProduct
    rw [hok]
    simp [h, hp, hs]
  · intro db now x e h hp hs herr
    unfold UpdateProduct
    rw [herr]
    simp [h, hp, hs]

/-- A product with a negative stock (C3 witness). -/
def c3NegStockProduct : Product :=
  { id := 2, name := "Widget", description := "", price := 2, stock := -1
    category := "", sku := "W2", createdAt := 0, updatedAt := 0, deletedAt := none }

/-- A plain user, blank-named on purpose (C3 witness): even a blank name is
accepted by `UpdateUser`. -/
def c3BlankNameUser : User :=
  { id := 3, name := "", email := "c@x.io", passwordHash := "h"
    createdAt := 0, updatedAt := 0, deletedAt := none }

/-- Witness for the amended C3 at concrete inputs: a user update (here with a
blank name, which creation would reject for products) passes straight to the
repository and succeeds, while a product update with negative stock is
rejected with a `ValidationError`. -/
theorem C3_witness :
    UpdateUser [] 7 c3BlankNameUser = ([], none)
  ∧ UpdateProduct [] 7 c3NegStockProduct
      = ([], some (SvcError.validation "product stock cannot be negative")) :=
  ⟨C3_update_validation_amended.2.2.2.1 [] 7 c3BlankNameUser [] (by rfl),
    C3_update_validation_amended.2.2.2.2.2.2.2.2.2.2.2.1 [] 7 c3NegStockProduct
      (by decide) (by norm_num [c3NegStockProduct]) (by decide)⟩

/-- A product whose id matches no stored row (C4). -/
def c4OrphanProduct : Product :=
  { id := 5, name := "Ghost", description := "", price := 1, stock := 0
    category := "", sku := "G", createdAt := 0, updatedAt := 0, deletedAt := none }

/-- **C4, counterexample.** The claim states that the repository `Update`
fails with a `StorageError` whenever the identifier matches no existing row.
But gorm's `Updates` reports no error when zero rows are affected: updating a
product whose id is absent from an empty table succeeds. -/
theorem C4_counterexample :
    productUpdate [] c4OrphanProduct = Except.ok []
  ∧ productUpdate [] c4OrphanProduct ≠ Except.error RepoError.storage :=
  ⟨rfl, by decide⟩

/-- **C4, amended.** The repository `Update` (for any of the four resources)
never reports a missing row as an error: for a non-zero identifier that
matches no existing row it succeeds with no error and leaves the stored rows
unchanged — gorm's `Updates` reports success with zero rows affected rather
than a `StorageError` — while for the zero (nil) identifier gorm builds no
WHERE clause at all and fails with `ErrMissingWhereClause` before touching
any row. -/
theorem C4_update_missing_row_amended :
    (∀ db (u : User), u.id ≠ 0 → (∀ r ∈ db, r.id ≠ u.id) →
        userUpdate db u = Except.ok db)
  ∧ (∀ db (x : Product), x.id ≠ 0 → (∀ r ∈ db, r.id ≠ x.id) →
        productUpdate db x = Except.ok db)
  ∧ (∀ db (x : Project), x.id ≠ 0 → (∀ r ∈ db, r.id ≠ x.id) →
        projectUpdate db x = Except.ok db)
  ∧ (∀ db (x : ProjectItem), x.id ≠ 0 → (∀ r ∈ db, r.id ≠ x.id) →
        itemUpdate db x = Except.ok db)
  ∧ (∀ db (u : User), u.id = 0 →
        userUpdate db u = Except.error RepoError.missingWhere)
  ∧ (∀ db (x : Product), x.id = 0 →
        productUpdate db x = Except.error RepoError.missingWhere)
  ∧ (∀ db (x : Project), x.id = 0 →
        projectUpdate db x = Except.error RepoError.missingWhere)
  ∧ (∀ db (x : ProjectItem), x.id = 0 →
        itemUpdate db x = Except.error RepoError.missingWhere) := by
  refine ⟨?_, ?_, ?_, ?_, ?_, ?_, ?_, ?_⟩
  · intro db u hz h
    have h2 : ∀ r ∈ db, (r.id == u.id) = false := by
      intro r hr
      simpa using h r hr
    have hany : (db.any (fun r => r.id == u.id
        && db.any (fun s => !(s.id == u.id) && s.email == (userMerge r u).email)))
        = false := by
      rw [List.any_eq_false]
      intro r hr
      simp [h2 r hr]
    unfold userUpdate
    rw [if_neg (by simp [hz]), if_neg (by simp [hany])]
    exact congrArg Except.ok (map_mark_eq_self _ _ _ h2)
  · intro db x hz h
    have h2 : ∀ r ∈ db, (r.id == x.id) = false := by
      intro r hr
      simpa using h r hr
    have hany : (db.any (fun r => r.id == x.id
        && db.any (fun s => !(s.id == x.id) && s.sku == (productMerge r x).sku)))
        = false := by
      rw [List.any_eq_false]
      intro r hr
      simp [h2 r hr]
    unfold productUpdate
    rw [if_neg (by simp [hz]), if_neg (by simp [hany])]
    exact congrArg Except.ok (map_mark_eq_self _ _ _ h2)
  · intro db x hz h
    have h2 : ∀ r ∈ db, (r.id == x.id) = false := by
      intro r hr
      simpa using h r hr
    unfold projectUpdate
    rw [if_neg (by simp [hz])]
    exact congrArg Except.ok (map_mark_eq_self _ _ _ h2)
  · intro db x hz h
    have h2 : ∀ r ∈ db, (r.id == x.id) = false := by
      intro r hr
      simpa using h r hr
    unfold itemUpdate
    rw [if_neg (by simp [hz])]
    exact congrArg Except.ok (map_mark_eq_self _ _ _ h2)
  · intro db u hz
    unfold userUpdate
    rw [if_pos (by simp [hz])]
  · intro db x hz
    unfold productUpdate
    rw [if_pos (by simp [hz])]
  · intro db x hz
    unfold projectUpdate
    rw [if_pos (by simp [hz])]
  · intro db x hz
    unfold itemUpdate
    rw [if_pos (by simp [hz])]

/-- A user whose (non-zero) id matches nothing (C4 witness). -/
def c4GhostUser : User :=
  { id := 9, name := "Ghost", email := "g@x.io", passwordHash := "h"
    createdAt := 0, updatedAt := 0, deletedAt := none }

/-- A user carrying the zero (nil) identifier (C4 witness). -/
def c4NilUser : User :=
  { id := 0, name := "Nil", email := "n@x.io", passwordHash := "h"
    createdAt := 0, updatedAt := 0, deletedAt := none }

/-- Witness for the amended C4 at concrete inputs: a missing non-zero id
succeeds with zero rows affected, the nil id fails with the missing-WHERE
error. -/
theorem C4_witness :
    userUpdate [] c4GhostUser = Except.ok []
  ∧ userUpdate [] c4NilUser = Except.error RepoError.missingWhere :=
  ⟨C4_update_missing_row_amended.1 [] c4GhostUser (by decide) (by decide),
    C4_update_missing_row_amended.2.2.2.2.1 [] c4NilUser (by decide)⟩

/-- If some non-deleted row holds the SKU, the `GetBySKU` pre-read finds a
row. -/
theorem productGetBySKU_found {db : List Product} {sku : String} (r : Product)
    (hr : r ∈ db) (hsku : r.sku = sku) (hdel : r.deletedAt = none) :
    ∃ y, productGetBySKU db sku = Except.ok y := by
  unfold productGetBySKU
  cases hf : db.find? (fun x => x.sku == sku && x.deletedAt == none) with
  | some y => exact ⟨y, rfl⟩
  | none =>
    rw [List.find?_eq_none] at hf
    exact absurd (by simp [hsku, hdel]) (hf r hr)

/-- Inversion of a successful `CreateProduct`: the returned product is the
literal built by the service and the new state appends it to the table. -/
theorem CreateProduct_ok {db db2 : List Product} {newId : UUID} {now : Time}
    {name description category sku : String} {price : Rat} {stock : Int}
    {x : Product}
    (h : CreateProduct db newId now name description category sku price stock
        = (db2, Except.ok x)) :
    x = mkProduct newId now name description category sku price stock
      ∧ db2 = db ++ [x] := by
  unfold CreateProduct at h
  split at h
  · simp at h
  · split at h
    · simp at h
    · split at h
      · simp at h
      · split at h
        · simp at h
        · split at h
          · simp at h
          · rename_i heq
            dsimp only at h
            split at h
            · rename_i db3 hcr
              unfold productCreate at hcr
              split at hcr
              · cases hcr
              · cases hcr
                obtain ⟨h1, h2⟩ := Prod.mk.injEq .. ▸ h
                cases h2
                exact ⟨rfl, h1.symm⟩
            · simp at h

/-- A soft-deleted product still holding SKU "X" (C5). -/
def c5DeletedSkuProduct : Product :=
  { id := 1, name := "Old", description := "", price := 5, stock := 1
    category := "", sku := "X", createdAt := 0, updatedAt := 0, deletedAt := some 7 }

/-- **C5, counterexample.** At this concrete input none of the claim's failure
conditions holds — the name and SKU are non-blank, the price is positive, the
stock non-negative, and no *non-deleted* product carries SKU "X" (the
`GetBySKU` pre-read misses) — yet `CreateProduct` does not persist the
product: the insert trips the storage-level unique constraint on `sku`, which
covers the soft-deleted row, and the call fails with a storage error, not a
`ValidationError`. -/
theorem C5_counterexample :
    isBlank "New" = false
  ∧ isBlank "X" = false
  ∧ ¬ ((5 : Rat) ≤ 0)
  ∧ ¬ ((1 : Int) < 0)
  ∧ productGetBySKU [c5DeletedSkuProduct] "X" = Except.error RepoError.notFound
  ∧ CreateProduct [c5DeletedSkuProduct] 2 3 "New" "" "" "X" 5 1
      = ([c5DeletedSkuProduct], Except.error (SvcError.repo RepoError.storage)) := by
  refine ⟨rfl, rfl, by norm_num, by decide, rfl, rfl⟩

/-- **C5, amended.** `CreateProduct` fails with a `ValidationError` exactly
along the source's guard ladder — blank/whitespace-only name, then
blank/whitespace-only SKU, then `price ≤ 0`, then `stock < 0`, then a
non-deleted product already holding the SKU (found by the `GetBySKU`
pre-read); past the guards it persists the product by appending it — unless
the storage unique constraint rejects the insert (a soft-deleted row still
holding the SKU, or an id collision), which surfaces as a `StorageError`
rather than a `ValidationError`. Consequently, of two otherwise-valid
creations with the same SKU, the second always fails. -/
theorem C5_create_product_amended (db : List Product) (newId : UUID) (now : Time)
    (name description category sku : String) (price : Rat) (stock : Int) :
    (isBlank name = true →
        CreateProduct db newId now name description category sku price stock
          = (db, Except.error (SvcError.validation "product name is required")))
  ∧ (isBlank name = false → isBlank sku = true →
        CreateProduct db newId now name description category sku price stock
          = (db, Except.error (SvcError.validation "product SKU is required")))
  ∧ (isBlank name = false → isBlank sku = false → price ≤ 0 →
        CreateProduct db newId now name description category sku price stock
          = (db, Except.error (SvcError.validation "product price must be greater than zero")))
  ∧ (isBlank name = false → isBlank sku = false → ¬ price ≤ 0 → stock < 0 →
        CreateProduct db newId now name description category sku price stock
          = (db, Except.error (SvcError.validation "product stock cannot be negative")))
  ∧ (isBlank name = false → isBlank sku = false → ¬ price ≤ 0 → ¬ stock < 0 →
        ∀ y, productGetBySKU db sku = Except.ok y →
        CreateProduct db newId now name description category sku price stock
          = (db, Except.error (SvcError.validation "product SKU already exists")))
  ∧ (isBlank name = false → isBlank sku = false → ¬ price ≤ 0 → ¬ stock < 0 →
        productGetBySKU db sku = Except.error RepoError.notFound →
        (∀ r ∈ db, r.id ≠ newId ∧ r.sku ≠ sku) →
        CreateProduct db newId now name description category sku price stock
          = (db ++ [mkProduct newId now name description category sku price stock],
             Except.ok (mkProduct newId now name description category sku price stock)))
  ∧ (isBlank name = false → isBlank sku = false → ¬ price ≤ 0 → ¬ stock < 0 →
        productGetBySKU db sku = Except.error RepoError.notFound →
        (∃ r ∈ db, r.id = newId ∨ r.sku = sku) →
        CreateProduct db newId now name description category sku price stock
          = (db, Except.error (SvcError.repo RepoError.storage)))
  ∧ (∀ db2 x,
        CreateProduct db newId now name description category sku price stock
          = (db2, Except.ok x) →
        ∀ i2 t2 n2 d2 c2 p2 s2,
          ∃ e, (CreateProduct db2 i2 t2 n2 d2 c2 sku p2 s2).2 = Except.error e) := by
  refine ⟨?_, ?_, ?_, ?_, ?_, ?_, ?_, ?_⟩
  · intro h1
    unfold CreateProduct
    simp [h1]
  · intro h1 h2
    unfold CreateProduct
    simp [h1, h2]
  · intro h1 h2 h3
    unfold CreateProduct
    simp [h1, h2, h3]
  · intro h1 h2 h3 h4
    unfold CreateProduct
    simp [h1, h2, h3, h4]
  · intro h1 h2 h3 h4 y hy
    unfold CreateProduct
    rw [hy]
    simp [h1, h2, h3, h4]
  · intro h1 h2 h3 h4 hmiss hfresh
    have hany : db.any (fun r =>
        r.id == (mkProduct newId now name description category sku price stock).id
          || r.sku == (mkProduct newId now name description category sku price stock).sku)
        = false := by
      rw [List.any_eq_false]
      intro r hr
      have := hfresh r hr
      simp [mkProduct]
      exact this
    unfold CreateProduct
    rw [hmiss]
    simp [h1, h2, h3, h4, productCreate, hany]
  · intro h1 h2 h3 h4 hmiss hdup
    obtain ⟨r, hr, hor⟩ := hdup
    have hany : db.any (fun x =>
        x.id == (mkProduct newId now name description category sku price stock).id
          || x.sku == (mkProduct newId now name description category sku price stock).sku)
        = true := by
      rw [List.any_eq_true]
      refine ⟨r, hr, ?_⟩
      simp [mkProduct]
      exact hor
    unfold CreateProduct
    rw [hmiss]
    simp [h1, h2, h3, h4, productCreate, hany]
  · intro db2 x hfirst i2 t2 n2 d2 c2 p2 s2
    obtain ⟨hx, hdb2⟩ := CreateProduct_ok hfirst
    by_cases g1 : isBlank n2 = true
    · exact ⟨SvcError.validation "product name is required",
        by unfold CreateProduct; simp [g1]⟩
    by_cases g2 : isBlank sku = true
    · exact ⟨SvcError.validation "product SKU is required",
        by unfold CreateProduct; simp [g1, g2]⟩
    by_cases g3 : p2 ≤ 0
    · exact ⟨SvcError.validation "product price must be greater than zero",
        by unfold CreateProduct; simp [g1, g2, g3]⟩
    by_cases g4 : s2 < 0
    · exact ⟨SvcError.validation "product stock cannot be negative",
        by unfold CreateProduct; simp [g1, g2, g3, g4]⟩
    obtain ⟨y, hok⟩ := @productGetBySKU_found db2 sku x
      (by simp [hdb2]) (by subst hx; rfl) (by subst hx; rfl)
    exact ⟨SvcError.validation "product SKU already exists",
      by unfold CreateProduct; rw [hok]; simp [g1, g2, g3, g4]⟩

/-- Witness for the amended C5 at concrete inputs: price 0 is rejected with a
`ValidationError` while price 0.01 (`mkRat 1 100`) is accepted and persists
the product. -/
theorem C5_witness :
    CreateProduct [] 1 2 "Pen" "" "" "PN" 0 5
      = ([], Except.error (SvcError.validation "product price must be greater than zero"))
  ∧ CreateProduct [] 1 2 "Pen" "" "" "PN" (mkRat 1 100) 5
      = ([mkProduct 1 2 "Pen" "" "" "PN" (mkRat 1 100) 5],
         Except.ok (mkProduct 1 2 "Pen" "" "" "PN" (mkRat 1 100) 5)) :=
  ⟨(C5_create_product_amended [] 1 2 "Pen" "" "" "PN" 0 5).2.2.1
      (by decide) (by decide) (by norm_num),
    (C5_create_product_amended [] 1 2 "Pen" "" "" "PN" (mkRat 1 100) 5).2.2.2.2.2.1
      (by decide) (by decide) (by norm_num) (by decide) (by rfl) (by decide)⟩

/-- An existing, non-deleted user holding the email `a@b.com` (C6). -/
def c6ExistingUser : User :=
  { id := 1, name := "A", email := "a@b.com", passwordHash := "h"
    createdAt := 0, updatedAt := 0, deletedAt := none }

/-- **C6, counterexample.** At this concrete input the email contains an "@"
and the password has 7 characters, so by the claim the user would be hashed
and persisted. But `CreateUser` performs no duplicate-email pre-check: the
insert trips the storage-level unique constraint on `email` and the call
fails with a storage error, persisting nothing. -/
theorem C6_counterexample :
    ("a@b.com".data.contains '@') = true
  ∧ ¬ (goLen "secret1" < 6)
  ∧ CreateUser [c6ExistingUser] 2 3 "B" "a@b.com" "secret1" (fun _ => "HASH")
      = ([c6ExistingUser], Except.error (SvcError.repo RepoError.storage)) := by
  refine ⟨rfl, by decide, rfl⟩

/-- **C6, amended.** `CreateUser` fails with a `ValidationError` when the
email lacks an "@" or the password is shorter than 6 bytes, persisting
nothing; for every other input it hashes the password and attempts to
persist: the insert succeeds — appending a record whose stored field is the
hash of the password, not the plaintext when the hash differs from it —
unless some user row (even a soft-deleted one) already holds the email or the
generated id, in which case the storage unique constraint rejects it with a
`StorageError` and nothing is persisted. -/
theorem C6_create_user_amended (db : List User) (newId : UUID) (now : Time)
    (name email password : String) (hash : String → String) :
    (email.data.contains '@' = false →
        CreateUser db newId now name email password hash
          = (db, Except.error (SvcError.validation "invalid email")))
  ∧ (email.data.contains '@' = true → goLen password < 6 →
        CreateUser db newId now name email password hash
          = (db, Except.error (SvcError.validation "password too short")))
  ∧ (email.data.contains '@' = true → ¬ goLen password < 6 →
        (∀ r ∈ db, r.id ≠ newId ∧ r.email ≠ email) →
        CreateUser db newId now name email password hash
          = (db ++ [mkUser newId now name email (hash password)],
             Except.ok (mkUser newId now name email (hash password)))
      ∧ (mkUser newId now name email (hash password)).passwordHash = hash password
      ∧ (hash password ≠ password →
          (mkUser newId now name email (hash password)).passwordHash ≠ password))
  ∧ (email.data.contains '@' = true → ¬ goLen password < 6 →
        (∃ r ∈ db, r.id = newId ∨ r.email = email) →
        CreateUser db newId now name email password hash
          = (db, Except.error (SvcError.repo RepoError.storage))) := by
  refine ⟨?_, ?_, ?_, ?_⟩
  · intro h1
    have h1m : ¬ ('@' ∈ email.data) := by simpa using h1
    unfold CreateUser
    simp [h1m]
  · intro h1 h2
    have h1m : '@' ∈ email.data := by simpa using h1
    unfold CreateUser
    simp [h1m, h2]
  · intro h1 h2 hfresh
    have h1m : '@' ∈ email.data := by simpa using h1
    have hany : db.any (fun r =>
        r.id == (mkUser newId now name email (hash password)).id
          || r.email == (mkUser newId now name email (hash password)).email)
        = false := by
      rw [List.any_eq_false]
      intro r hr
      have := hfresh r hr
      simp [mkUser]
      exact this
    refine ⟨?_, rfl, fun hne => hne⟩
    unfold CreateUser
    simp [h1m, h2, userCreate, hany]
  · intro h1 h2 hdup
    have h1m : '@' ∈ email.data := by simpa using h1
    obtain ⟨r, hr, hor⟩ := hdup
    have hany : db.any (fun x =>
        x.id == (mkUser newId now name email (hash password)).id
          || x.email == (mkUser newId now name email (hash password)).email)
        = true := by
      rw [List.any_eq_true]
      refine ⟨r, hr, ?_⟩
      simp [mkUser]
      exact hor
    unfold CreateUser
    simp [h1m, h2, userCreate, hany]

/-- Witness for the amended C6 at concrete inputs: a valid registration
persists a record holding the hash, and an email without "@" is rejected. -/
theorem C6_witness :
    CreateUser [] 1 2 "A" "a@b.com" "secret1" (fun _ => "HASH")
      = ([mkUser 1 2 "A" "a@b.com" "HASH"], Except.ok (mkUser 1 2 "A" "a@b.com" "HASH"))
  ∧ CreateUser [] 1 2 "A" "nope" "secret1" (fun _ => "HASH")
      = ([], Except.error (SvcError.validation "invalid email")) :=
  ⟨((C6_create_user_amended [] 1 2 "A" "a@b.com" "secret1" (fun _ => "HASH")).2.2.1
      (by decide) (by decide) (by decide)).1,
    (C6_create_user_amended [] 1 2 "A" "nope" "secret1" (fun _ => "HASH")).1
      (by decide)⟩

/-- **C7.** For every `List` call on any of the four resources, against any
storage ordering that permutes the matched rows: the number of returned rows
is `pageCount` of the matched-row count — in particular a limit of 0 or
negative applies no limit (all matching rows are returned, subject to the
offset) since `pageCount` then degenerates to `n - offset`; an offset at or
beyond the result-set size yields the empty list (the Go `List` returns a nil
error in every non-failing case, so this is never an error); and with 25
matching rows, `limit=10, offset=20` returns exactly 5 rows while
`offset=30` returns 0 rows. -/
theorem C7_pagination :
    (∀ ob, (∀ s l, List.Perm (ob s l) l) → ∀ db f p,
        (userList ob db f p).length = pageCount p (db.filter (userMatches f)).length)
  ∧ (∀ ob, (∀ s l, List.Perm (ob s l) l) → ∀ db f p,
        (productList ob db f p).length
          = pageCount p (db.filter (productMatches f)).length)
  ∧ (∀ ob, (∀ s l, List.Perm (ob s l) l) → ∀ db f p,
        (projectList ob db f p).length
          = pageCount p (db.filter (projectMatches f)).length)
  ∧ (∀ ob, (∀ s l, List.Perm (ob s l) l) → ∀ db f p,
        (itemList ob db f p).length
          = pageCount p (db.filter (itemMatches f)).length)
  ∧ (∀ ob, (∀ s l, List.Perm (ob s l) l) → ∀ db f (p : Pagination),
        (db.filter (productMatches f)).length ≤ offsetEff p →
        productList ob db f p = [])
  ∧ (∀ ob, (∀ s l, List.Perm (ob s l) l) → ∀ db f (s : String),
        (db.filter (productMatches f)).length = 25 →
        (productList ob db f { limit := 10, offset := 20, sort := s }).length = 5
      ∧ (productList ob db f { limit := 10, offset := 30, sort := s }).length = 0) := by
  refine ⟨?_, ?_, ?_, ?_, ?_, ?_⟩
  · exact fun ob hob db f p => length_paginate hob p _
  · exact fun ob hob db f p => length_paginate hob p _
  · exact fun ob hob db f p => length_paginate hob p _
  · exact fun ob hob db f p => length_paginate hob p _
  · intro ob hob db f p hoff
    apply List.length_eq_zero.1
    show (paginate ob p (db.filter (productMatches f))).length = 0
    rw [length_paginate hob]
    simp [pageCount, Nat.sub_eq_zero_of_le hoff]
  · intro ob hob db f s h25
    constructor
    · show (paginate ob { limit := 10, offset := 20, sort := s }
          (db.filter (productMatches f))).length = 5
      rw [length_paginate hob, h25]
      simp [pageCount, offsetEff]
    · show (paginate ob { limit := 10, offset := 30, sort := s }
          (db.filter (productMatches f))).length = 0
      rw [length_paginate hob, h25]
      simp [pageCount, offsetEff]

/-- A plain visible product used to populate a 25-row table (C7). -/
def c7Product : Product :=
  { id := 1, name := "P", description := "", price := 2, stock := 0
    category := "", sku := "S", createdAt := 0, updatedAt := 0, deletedAt := none }

/-- Witness for C7 at concrete inputs: with 25 matching rows the page
`limit=10, offset=20` holds exactly 5 rows and `offset=30` holds none. -/
theorem C7_witness :
    (productList (fun _ l => l) (List.replicate 25 c7Product) {}
        { limit := 10, offset := 20, sort := "" }).length = 5
  ∧ (productList (fun _ l => l) (List.replicate 25 c7Product) {}
        { limit := 10, offset := 30, sort := "" }).length = 0 :=
  C7_pagination.2.2.2.2.2 (fun _ l => l) (fun s l => List.Perm.refl l)
    (List.replicate 25 c7Product) {} "" (by decide)

/-- **C8.** In `PostgresProductRepository.List`, each price bound is applied
independently and inclusively: with both `price_from` and `price_to` set (and
no other filter), the result is exactly the non-deleted rows whose price lies
in the closed interval — up to the storage ordering, hence stated as a
permutation — and a non-deleted row priced exactly at either endpoint is
returned; with only one bound set, only that bound constrains the result. -/
theorem C8_price_range_filter (ob : String → List Product → List Product)
    (hob : ∀ s l, List.Perm (ob s l) l) (db : List Product) (lo hi : Rat)
    (s : String) :
    List.Perm
      (productList ob db { priceFrom := some lo, priceTo := some hi } { sort := s })
      (db.filter (fun x =>
        decide (lo ≤ x.price) && decide (x.price ≤ hi) && x.deletedAt == none))
  ∧ List.Perm
      (productList ob db { priceFrom := some lo } { sort := s })
      (db.filter (fun x => decide (lo ≤ x.price) && x.deletedAt == none))
  ∧ List.Perm
      (productList ob db { priceTo := some hi } { sort := s })
      (db.filter (fun x => decide (x.price ≤ hi) && x.deletedAt == none))
  ∧ (∀ x ∈ db, x.deletedAt = none → lo ≤ x.price → x.price ≤ hi →
        x ∈ productList ob db { priceFrom := some lo, priceTo := some hi }
              { sort := s }) := by
  have hboth : ∀ x ∈ db,
      productMatches { priceFrom := some lo, priceTo := some hi } x
        = (decide (lo ≤ x.price) && decide (x.price ≤ hi) && x.deletedAt == none) := by
    intro x hx
    simp [productMatches, fromBoundQ, toBoundQ, fromBoundZ, toBoundZ,
      fromBound, toBound, ilike, Bool.and_assoc]
  have hpermBoth :
      List.Perm
        (productList ob db { priceFrom := some lo, priceTo := some hi } { sort := s })
        (db.filter (fun x =>
          decide (lo ≤ x.price) && decide (x.price ≤ hi) && x.deletedAt == none)) := by
    rw [(List.filter_congr hboth).symm]
    exact paginate_perm hob { sort := s } (le_refl 0) (le_refl 0) _
  refine ⟨hpermBoth, ?_, ?_, ?_⟩
  · have hfrom : ∀ x ∈ db,
        productMatches { priceFrom := some lo } x
          = (decide (lo ≤ x.price) && x.deletedAt == none) := by
      intro x hx
      simp [productMatches, fromBoundQ, toBoundQ, fromBoundZ, toBoundZ,
        fromBound, toBound, ilike, Bool.and_assoc]
    rw [(List.filter_congr hfrom).symm]
    exact paginate_perm hob { sort := s } (le_refl 0) (le_refl 0) _
  · have hto : ∀ x ∈ db,
        productMatches { priceTo := some hi } x
          = (decide (x.price ≤ hi) && x.deletedAt == none) := by
      intro x hx
      simp [productMatches, fromBoundQ, toBoundQ, fromBoundZ, toBoundZ,
        fromBound, toBound, ilike, Bool.and_assoc]
    rw [(List.filter_congr hto).symm]
    exact paginate_perm hob { sort := s } (le_refl 0) (le_refl 0) _
  · intro x hx hdel hlo hhi
    rw [hpermBoth.mem_iff]
    rw [List.mem_filter]
    exact ⟨hx, by simp [hdel, hlo, hhi]⟩

/-- A product priced exactly at the lower bound 10 (C8). -/
def c8ProductAt10 : Product :=
  { id := 1, name := "L", description := "", price := 10, stock := 0
    category := "", sku := "L1", createdAt := 0, updatedAt := 0, deletedAt := none }

/-- A product priced exactly at the upper bound 20 (C8). -/
def c8ProductAt20 : Product :=
  { id := 2, name := "U", description := "", price := 20, stock := 0
    category := "", sku := "U1", createdAt := 0, updatedAt := 0, deletedAt := none }

/-- Witness for C8 at concrete inputs: with `price_from=10, price_to=20`,
products priced exactly 10 and exactly 20 are both returned. -/
theorem C8_witness :
    c8ProductAt10 ∈ productList (fun _ l => l) [c8ProductAt10, c8ProductAt20]
        { priceFrom := some 10, priceTo := some 20 } { sort := "" }
  ∧ c8ProductAt20 ∈ productList (fun _ l => l) [c8ProductAt10, c8ProductAt20]
        { priceFrom := some 10, priceTo := some 20 } { sort := "" } :=
  ⟨(C8_price_range_filter (fun _ l => l) (fun s l => List.Perm.refl l)
      [c8ProductAt10, c8ProductAt20] 10 20 "").2.2.2 c8ProductAt10
      (by decide) (by rfl) (by norm_num [c8ProductAt10]) (by norm_num [c8ProductAt10]),
    (C8_price_range_filter (fun _ l => l) (fun s l => List.Perm.refl l)
      [c8ProductAt10, c8ProductAt20] 10 20 "").2.2.2 c8ProductAt20
      (by decide) (by rfl) (by norm_num [c8ProductAt20]) (by norm_num [c8ProductAt20])⟩

/-- Re-marking an id leaves the visible user rows unchanged. -/
theorem visibleUsers_mark_mark (db : List User) (id : UUID) (t1 t2 : Time) :
    visibleUsers (userMark (userMark db id t1) id t2)
      = visibleUsers (userMark db id t1) := by
  unfold visibleUsers userMark
  rw [filter_map_mark (fun r : User => r.id == id)
      (fun r : User => r.deletedAt == none)
      (fun r : User => { r with deletedAt := some t2 }) (fun r _ => rfl),
    filter_map_mark (fun r : User => r.id == id)
      (fun r : User => r.deletedAt == none)
      (fun r : User => { r with deletedAt := some t1 }) (fun r _ => rfl),
    filter_map_mark_stable (fun r : User => r.id == id)
      (fun r : User => r.deletedAt == none)
      (fun r : User => { r with deletedAt := some t1 }) (fun r => rfl)]

/-- Re-marking an id leaves the visible product rows unchanged. -/
theorem visibleProducts_mark_mark (db : List Product) (id : UUID) (t1 t2 : Time) :
    visibleProducts (productMark (productMark db id t1) id t2)
      = visibleProducts (productMark db id t1) := by
  unfold visibleProducts productMark
  rw [filter_map_mark (fun r : Product => r.id == id)
      (fun r : Product => r.deletedAt == none)
      (fun r : Product => { r with deletedAt := some t2 }) (fun r _ => rfl),
    filter_map_mark (fun r : Product => r.id == id)
      (fun r : Product => r.deletedAt == none)
      (fun r : Product => { r with deletedAt := some t1 }) (fun r _ => rfl),
    filter_map_mark_stable (fun r : Product => r.id == id)
      (fun r : Product => r.deletedAt == none)
      (fun r : Product => { r with deletedAt := some t1 }) (fun r => rfl)]

/-- Re-marking an id leaves the visible project rows unchanged. -/
theorem visibleProjects_mark_mark (db : List Project) (id : UUID) (t1 t2 : Time) :
    visibleProjects (projectMark (projectMark db id t1) id t2)
      = visibleProjects (projectMark db id t1) := by
  unfold visibleProjects projectMark
  rw [filter_map_mark (fun r : Project => r.id == id)
      (fun r : Project => r.deletedAt == none)
      (fun r : Project => { r with deletedAt := some t2 }) (fun r _ => rfl),
    filter_map_mark (fun r : Project => r.id == id)
      (fun r : Project => r.deletedAt == none)
      (fun r : Project => { r with deletedAt := some t1 }) (fun r _ => rfl),
    filter_map_mark_stable (fun r : Project => r.id == id)
      (fun r : Project => r.deletedAt == none)
      (fun r : Project => { r with deletedAt := some t1 }) (fun r => rfl)]

/-- Re-marking an id leaves the visible project item rows unchanged. -/
theorem visibleItems_mark_mark (db : List ProjectItem) (id : UUID) (t1 t2 : Time) :
    visibleItems (itemMark (itemMark db id t1) id t2)
      = visibleItems (itemMark db id t1) := by
  unfold visibleItems itemMark
  rw [filter_map_mark (fun r : ProjectItem => r.id == id)
      (fun r : ProjectItem => r.deletedAt == none)
      (fun r : ProjectItem => { r with deletedAt := some t2 }) (fun r _ => rfl),
    filter_map_mark (fun r : ProjectItem => r.id == id)
      (fun r : ProjectItem => r.deletedAt == none)
      (fun r : ProjectItem => { r with deletedAt := some t1 }) (fun r _ => rfl),
    filter_map_mark_stable (fun r : ProjectItem => r.id == id)
      (fun r : ProjectItem => r.deletedAt == none)
      (fun r : ProjectItem => { r with deletedAt := some t1 }) (fun r => rfl)]

/-- **C9.** For each of the four resources: `Delete` soft-deletes — it
returns success and stamps `deleted_at := now` on every row carrying the
identifier without physically removing any row (the row count is unchanged
and the stamped row is still stored); deleting again also succeeds (gorm
never reports "already deleted"), and the visible state — the rows satisfying
the default `deleted_at IS NULL` predicate — after the second call equals the
visible state after the first. -/
theorem C9_soft_delete_idempotent :
    (∀ db id now now2,
        userDelete db id now = Except.ok (userMark db id now)
      ∧ (userMark db id now).length = db.length
      ∧ (∀ r ∈ db, r.id = id → { r with deletedAt := some now } ∈ userMark db id now)
      ∧ userDelete (userMark db id now) id now2
          = Except.ok (userMark (userMark db id now) id now2)
      ∧ visibleUsers (userMark (userMark db id now) id now2)
          = visibleUsers (userMark db id now))
  ∧ (∀ db id now now2,
        productDelete db id now = Except.ok (productMark db id now)
      ∧ (productMark db id now).length = db.length
      ∧ (∀ r ∈ db, r.id = id → { r with deletedAt := some now } ∈ productMark db id now)
      ∧ productDelete (productMark db id now) id now2
          = Except.ok (productMark (productMark db id now) id now2)
      ∧ visibleProducts (productMark (productMark db id now) id now2)
          = visibleProducts (productMark db id now))
  ∧ (∀ db id now now2,
        projectDelete db id now = Except.ok (projectMark db id now)
      ∧ (projectMark db id now).length = db.length
      ∧ (∀ r ∈ db, r.id = id → { r with deletedAt := some now } ∈ projectMark db id now)
      ∧ projectDelete (projectMark db id now) id now2
          = Except.ok (projectMark (projectMark db id now) id now2)
      ∧ visibleProjects (projectMark (projectMark db id now) id now2)
          = visibleProjects (projectMark db id now))
  ∧ (∀ db id now now2,
        itemDelete db id now = Except.ok (itemMark db id now)
      ∧ (itemMark db id now).length = db.length
      ∧ (∀ r ∈ db, r.id = id → { r with deletedAt := some now } ∈ itemMark db id now)
      ∧ itemDelete (itemMark db id now) id now2
          = Except.ok (itemMark (itemMark db id now) id now2)
      ∧ visibleItems (itemMark (itemMark db id now) id now2)
          = visibleItems (itemMark db id now)) := by
  refine ⟨?_, ?_, ?_, ?_⟩ <;> intro db id now now2
  · refine ⟨rfl, List.length_map _ _, ?_, rfl, visibleUsers_mark_mark db id now now2⟩
    intro r hr hrid
    have hm := List.mem_map_of_mem
      (fun r => if r.id == id then { r with deletedAt := some now } else r) hr
    simpa [userMark, hrid] using hm
  · refine ⟨rfl, List.length_map _ _, ?_, rfl,
      visibleProducts_mark_mark db id now now2⟩
    intro r hr hrid
    have hm := List.mem_map_of_mem
      (fun r => if r.id == id then { r with deletedAt := some now } else r) hr
    simpa [productMark, hrid] using hm
  · refine ⟨rfl, List.length_map _ _, ?_, rfl,
      visibleProjects_mark_mark db id now now2⟩
    intro r hr hrid
    have hm := List.mem_map_of_mem
      (fun r => if r.id == id then { r with deletedAt := some now } else r) hr
    simpa [projectMark, hrid] using hm
  · refine ⟨rfl, List.length_map _ _, ?_, rfl, visibleItems_mark_mark db id now now2⟩
    intro r hr hrid
    have hm := List.mem_map_of_mem
      (fun r => if r.id == id then { r with deletedAt := some now } else r) hr
    simpa [itemMark, hrid] using hm

/-- A visible user about to be soft-deleted (C9). -/
def c9User : User :=
  { id := 1, name := "Del", email := "d@x.io", passwordHash := "h"
    createdAt := 0, updatedAt := 0, deletedAt := none }

/-- Witness for C9 at concrete inputs: the delete stamps `deleted_at := 5` on
the stored row (which remains stored), and a second delete at time 8 leaves
the same visible state. -/
theorem C9_witness :
    { c9User with deletedAt := some 5 } ∈ userMark [c9User] 1 5
  ∧ visibleUsers (userMark (userMark [c9User] 1 5) 1 8)
      = visibleUsers (userMark [c9User] 1 5) :=
  ⟨(C9_soft_delete_idempotent.1 [c9User] 1 5 8).2.2.1 c9User (by decide) (by decide),
    (C9_soft_delete_idempotent.1 [c9User] 1 5 8).2.2.2.2⟩

/-- A user whose email differs from the filter string only in case (C10). -/
def c10User : User :=
  { id := 1, name := "Alice", email := "A@b.com", passwordHash := "h"
    createdAt := 0, updatedAt := 0, deletedAt := none }

/-- **C10.** In `PostgresUserRepository.List`, a non-empty email filter
matches by exact, case-sensitive equality: every returned user carries
exactly the filter string as email. By contrast the name filter on the same
operation uses `ILIKE`, a case-insensitive substring match: the user named
"Alice" is found by the name filter "al" but not by the email filter
"a@b.com" against the stored "A@b.com", which only the exact-case filter
string matches. -/
theorem C10_email_exact_match :
    (∀ ob, (∀ s l, List.Perm (ob s l) l) → ∀ db (e : String) (p : Pagination),
        e ≠ "" → ∀ u ∈ userList ob db { email := e } p, u.email = e)
  ∧ userList (fun _ l => l) [c10User] { email := "a@b.com" } {} = []
  ∧ userList (fun _ l => l) [c10User] { email := "A@b.com" } {} = [c10User]
  ∧ userList (fun _ l => l) [c10User] { name := "al" } {} = [c10User] := by
  refine ⟨?_, by decide, by decide, by decide⟩
  intro ob hob db e p he u hu
  have hm := (List.mem_filter.1 (mem_of_mem_paginate hob hu)).2
  simp [userMatches] at hm
  rcases hm.1.1.1 with h1 | h2
  · exact absurd h1 he
  · exact h2

/-- A user whose email matches the filter exactly (C10 witness). -/
def c10ExactUser : User :=
  { id := 2, name := "Bob", email := "b@c.de", passwordHash := "h"
    createdAt := 0, updatedAt := 0, deletedAt := none }

/-- Witness for C10 at a concrete input: a user returned under the email
filter `b@c.de` carries exactly that email. -/
theorem C10_witness : c10ExactUser.email = "b@c.de" :=
  C10_email_exact_match.1 (fun _ l => l) (fun s l => List.Perm.refl l)
    [c10ExactUser] "b@c.de" {} (by decide) c10ExactUser (by decide)

end GoApiRest
